import Mathlib

/-!
Verification development for the ScriptRust runtime.

The repository ships three example programs in the ScriptRust dialect
(`src/examples/classes.rs`, `src/examples/ownership.rs`,
`src/examples/hello.rs`).  The runtime that lexes, parses and evaluates
this dialect is not part of the repository sources; it is described by
the specification (spec.md sections 2 through 7).  The definitions below
therefore embed that runtime as the specification describes it, and the
example files are embedded as the inputs they are: `helloSource` is the
verbatim text of `hello.rs`, while the `classes.rs` and `ownership.rs`
programs are embedded as the abstract syntax trees the specified parser
(recursive descent, `*` and `/` binding tighter than `+` and `-`)
produces for them.

Numbers: the spec models Number as an IEEE-754 double.  The embedding
uses exact rational arithmetic together with explicit infinity and NaN
values for the division-by-zero policy.  Every computation appearing in
the claims (small integers, and short decimal literals times small
integers) is exact in IEEE-754 binary64 as well, and the asserted
decimal results coincide with the binary64 results, so the rational
model agrees with the spec on all of them.  Arithmetic is written with
`mkRat` rather than the `Rat` field operations so that every evaluator
run reduces definitionally.
-/

/-- Modelled from the spec (4.4): addition of two Numbers.  Written via
`mkRat` so that concrete runs reduce; the value is the exact rational sum. -/
def qAdd (a b : ℚ) : ℚ := mkRat (a.num * b.den + b.num * a.den) (a.den * b.den)

/-- Modelled from the spec (4.4): subtraction of two Numbers. -/
def qSub (a b : ℚ) : ℚ := mkRat (a.num * b.den - b.num * a.den) (a.den * b.den)

/-- Modelled from the spec (4.4): multiplication of two Numbers. -/
def qMul (a b : ℚ) : ℚ := mkRat (a.num * b.num) (a.den * b.den)

/-- Modelled from the spec (4.4, 7): quotient of two Numbers with a nonzero
divisor.  The sign is moved into the numerator so the `mkRat` denominator is
a natural number. -/
def qDiv (a b : ℚ) : ℚ :=
  if b.num < 0 then mkRat (-(a.num * (b.den : Int))) (a.den * b.num.natAbs)
  else mkRat (a.num * (b.den : Int)) (a.den * b.num.natAbs)

/-- Modelled from the spec (3): the runtime Number.  The spec makes Number an
IEEE-754 double; the embedding keeps finite values as exact rationals and
carries the two infinities and NaN explicitly for the division-by-zero
policy of section 7. -/
inductive NumberV where
  | finite (q : ℚ)
  | posInf
  | negInf
  | nan
deriving DecidableEq

/-- Modelled from the spec (4.4): Number addition, with NaN propagation and
the usual infinity rules as the defensive cases. -/
def NumberV.add : NumberV → NumberV → NumberV
  | .finite a, .finite b => .finite (qAdd a b)
  | .nan, _ => .nan
  | _, .nan => .nan
  | .posInf, .negInf => .nan
  | .negInf, .posInf => .nan
  | .posInf, _ => .posInf
  | _, .posInf => .posInf
  | .negInf, _ => .negInf
  | _, .negInf => .negInf

/-- Modelled from the spec (4.4): Number subtraction. -/
def NumberV.sub : NumberV → NumberV → NumberV
  | .finite a, .finite b => .finite (qSub a b)
  | .nan, _ => .nan
  | _, .nan => .nan
  | .posInf, .posInf => .nan
  | .negInf, .negInf => .nan
  | .posInf, _ => .posInf
  | _, .posInf => .negInf
  | .negInf, _ => .negInf
  | _, .negInf => .posInf

/-- Modelled from the spec (4.4): Number multiplication; infinities times
zero give NaN, otherwise signs multiply. -/
def NumberV.mul : NumberV → NumberV → NumberV
  | .finite a, .finite b => .finite (qMul a b)
  | .nan, _ => .nan
  | _, .nan => .nan
  | .posInf, .posInf => .posInf
  | .negInf, .negInf => .posInf
  | .posInf, .negInf => .negInf
  | .negInf, .posInf => .negInf
  | .posInf, .finite b => if b = 0 then .nan else if 0 < b then .posInf else .negInf
  | .finite a, .posInf => if a = 0 then .nan else if 0 < a then .posInf else .negInf
  | .negInf, .finite b => if b = 0 then .nan else if 0 < b then .negInf else .posInf
  | .finite a, .negInf => if a = 0 then .nan else if 0 < a then .negInf else .posInf

/-- Modelled from the spec (7): Number division.  Division of a finite
Number by zero follows the stated policy: it is not an error, the result is
NaN for a zero dividend and a signed infinity otherwise. -/
def NumberV.div : NumberV → NumberV → NumberV
  | .finite a, .finite b =>
      if b = 0 then (if a = 0 then .nan else if 0 < a then .posInf else .negInf)
      else .finite (qDiv a b)
  | .nan, _ => .nan
  | _, .nan => .nan
  | .posInf, .posInf => .nan
  | .posInf, .negInf => .nan
  | .negInf, .posInf => .nan
  | .negInf, .negInf => .nan
  | .posInf, .finite b => if 0 ≤ b then .posInf else .negInf
  | .negInf, .finite b => if 0 ≤ b then .negInf else .posInf
  | .finite _, .posInf => .finite 0
  | .finite _, .negInf => .finite 0

/-- Modelled from the spec (4.1, 4.4): the `==` test on Numbers; NaN compares
unequal to everything, itself included. -/
def NumberV.eqb : NumberV → NumberV → Bool
  | .finite a, .finite b => decide (a = b)
  | .posInf, .posInf => true
  | .negInf, .negInf => true
  | _, _ => false

/-- Decimal digit to its character. -/
def digitChar (d : ℕ) : Char := Char.ofNat (48 + d)

/-- Character to its decimal digit value. -/
def charDigit (c : Char) : ℕ := c.toNat - 48

/-- Recognizer for the characters 0 through 9. -/
def isDigitC (c : Char) : Bool := 48 ≤ c.toNat && c.toNat ≤ 57

/-- Fuel-driven little-endian base-10 digits; structurally recursive so that
concrete runs reduce inside the kernel. -/
def natDigitsAux : ℕ → ℕ → List ℕ
  | _, 0 => []
  | 0, _ + 1 => []
  | fuel + 1, n + 1 => ((n + 1) % 10) :: natDigitsAux fuel ((n + 1) / 10)

/-- Little-endian base-10 digits of a natural number. -/
def natDigits (n : ℕ) : List ℕ := natDigitsAux n n

/-- Big-endian character rendering of a natural number; empty for zero. -/
def natChars (n : ℕ) : List Char := ((natDigits n).map digitChar).reverse

/-- Big-endian character rendering of a natural number, zero included. -/
def natCharsZ (n : ℕ) : List Char := if n = 0 then ['0'] else natChars n

/-- Character rendering of `n` left-padded with zeros to width `k`. -/
def natCharsPad (n k : ℕ) : List Char :=
  List.replicate (k - (natChars n).length) '0' ++ natChars n

/-- Big-endian decimal reading of a character list. -/
def readNat (cs : List Char) : ℕ := cs.foldl (fun a c => 10 * a + charDigit c) 0

/-- Search for an exponent `k` below the fuel bound with `10 ^ k` divisible
by `den`; used by the formatter to find the exact decimal expansion. -/
def findKAux (den : ℕ) : ℕ → ℕ → Option ℕ
  | _, 0 => none
  | k, fuel + 1 => if 10 ^ k % den = 0 then some k else findKAux den (k + 1) fuel

/-- Least viable decimal exponent for a denominator: `findK den = some k`
guarantees `den` divides `10 ^ k`.  Every denominator a Number reachable
from IEEE-754 doubles can have (a power of two) admits such a `k`. -/
def findK (den : ℕ) : Option ℕ := findKAux den 0 (den + 1)

/-- Decimal character rendering of the fraction `n / 10 ^ k` in the form the
spec's formatter (4.5) prescribes: no forced trailing `.0`, an explicit
integer part and a `k`-digit fraction part otherwise. -/
def decChars (n k : ℕ) : List Char :=
  if k = 0 then natCharsZ n
  else natCharsZ (n / 10 ^ k) ++ '.' :: natCharsPad (n % 10 ^ k) k

/-- Modelled from the spec (4.5): the formatter's rendering of a finite
Number, as a character list.  The value is written as its exact terminating
decimal when the denominator divides a power of ten — which is the case for
every value an IEEE-754 double can take, where this exact decimal is also
the round-trip text — and defensively as a fraction otherwise. -/
def renderRatChars (q : ℚ) : List Char :=
  match findK q.den with
  | some k =>
      (if q.num < 0 then ['-'] else []) ++
        decChars (q.num.natAbs * (10 ^ k / q.den)) k
  | none =>
      (if q.num < 0 then ['-'] else []) ++
        natCharsZ q.num.natAbs ++ '/' :: natCharsZ q.den

/-- Modelled from the spec (4.5): the formatter's rendering of a Number. -/
def renderNumber : NumberV → String
  | .finite q => String.mk (renderRatChars q)
  | .posInf => "inf"
  | .negInf => "-inf"
  | .nan => "NaN"

/-- Unsigned numeric-literal reading: an integer part, optionally followed by
a dot and a fraction part, exactly the shape of the dialect's numeric
literals (4.1). -/
def parseUnsignedChars (cs : List Char) : Option ℚ :=
  let ip := cs.takeWhile isDigitC
  let rest := cs.dropWhile isDigitC
  if ip.isEmpty then none
  else if rest.isEmpty then some (mkRat (readNat ip) 1)
  else if rest.head? = some '.' then
    if rest.tail.isEmpty || !rest.tail.all isDigitC then none
    else some (mkRat (readNat ip * 10 ^ rest.tail.length + readNat rest.tail)
      (10 ^ rest.tail.length))
  else none

/-- Numeric-literal reading of a character list, sign included. -/
def parseRatChars (cs : List Char) : Option ℚ :=
  if cs.head? = some '-' then (parseUnsignedChars cs.tail).map Neg.neg
  else parseUnsignedChars cs

/-- Modelled from the spec (4.1, 8): re-parsing a rendered Number as a
numeric literal. -/
def parseNumber (s : String) : Option NumberV :=
  (parseRatChars s.toList).map NumberV.finite

/-- Modelled from the spec (3): the runtime Value union — Number, Text,
StructInstance, Unit.  A StructInstance is a shared mutable object identity
(4.3), so the value holds a heap address and the instance's field mapping
lives in the store; a Boolean kind is added because the dialect's `==`
operator (4.1) and `if` statement need a truth value even though the union
in section 3 does not name one. -/
inductive Value where
  | num (n : NumberV)
  | text (s : String)
  | inst (addr : ℕ)
  | boolv (b : Bool)
  | unit
deriving DecidableEq

/-- Modelled from the spec (3, 4.3): a heap object — the struct's name and
its mutable mapping from field name to Value. -/
structure Obj where
  sname : String
  fields : List (String × Value)
deriving DecidableEq

/-- Evaluator state: the store of struct instances and the output lines the
print macro has emitted so far (6). -/
structure EvalSt where
  heap : List Obj
  out : List String
deriving DecidableEq

/-- Association-list lookup used for scopes and field mappings. -/
def getA : List (String × Value) → String → Option Value
  | [], _ => none
  | (k, v) :: rest, n => if k = n then some v else getA rest n

/-- Association-list update; `none` when the key is absent. -/
def setA : List (String × Value) → String → Value → Option (List (String × Value))
  | [], _, _ => none
  | (k, v) :: rest, n, w =>
      if k = n then some ((k, w) :: rest)
      else match setA rest n w with
           | some rest2 => some ((k, v) :: rest2)
           | none => none

/-- Modelled from the spec (3): one scope of the Environment. -/
def Scope := List (String × Value)

/-- Modelled from the spec (3): the Environment — a chain of scopes, child
first, with lookup walking outward. -/
def Env := List Scope

/-- Name lookup walking the scope chain outward (3). -/
def lookupEnv : Env → String → Option Value
  | [], _ => none
  | s :: rest, n =>
      match getA s n with
      | some v => some v
      | none => lookupEnv rest n

/-- Modelled from the spec (4.4): `let` binds the name in the current scope,
shadowing without destroying any outer binding of the same name. -/
def envBind : Env → String → Value → Env
  | [], n, v => [[(n, v)]]
  | s :: rest, n, v => ((n, v) :: s) :: rest

/-- The global scope backing lexical lookup inside a call body (4.4). -/
def globalScope (env : Env) : Scope := env.getLastD []

/-- Field read at a heap address. -/
def heapGetField (heap : List Obj) (a : ℕ) (f : String) : Option Value :=
  match heap[a]? with
  | some o => getA o.fields f
  | none => none

/-- Field write at a heap address; in-place mutation of the instance's
mapping, visible to every binding holding the same address (4.3). -/
def heapSetField (heap : List Obj) (a : ℕ) (f : String) (v : Value) :
    Option (List Obj) :=
  match heap[a]? with
  | some o =>
      match setA o.fields f v with
      | some fs => some (heap.set a ⟨o.sname, fs⟩)
      | none => none
  | none => none

/-- Modelled from the spec (3): a StructDef — name and ordered field list
with declared type tags. -/
structure StructDef where
  name : String
  fieldDecls : List (String × String)
deriving DecidableEq

/-- Modelled from the spec (4.2): the dialect's binary operators. -/
inductive BinOp where
  | add
  | sub
  | mul
  | div
  | eq
deriving DecidableEq

/-- Modelled from the spec (3): expression kinds of the AST. -/
inductive Expr where
  | numLit (q : ℚ)
  | strLit (s : String)
  | ident (name : String)
  | binop (op : BinOp) (l r : Expr)
  | fieldAcc (obj : Expr) (field : String)
  | methodCall (recv : Expr) (name : String) (args : List Expr)
  | staticCall (sname fname : String) (args : List Expr)
  | structLit (sname : String) (inits : List (String × Expr))

/-- Modelled from the spec (3): statement kinds of the AST.  `println` is
the dialect's one macro call (4.4). -/
inductive Stmt where
  | letDecl (name : String) (rhs : Expr)
  | exprStmt (e : Expr)
  | assignField (obj : Expr) (field : String) (rhs : Expr)
  | ifStmt (cond : Expr) (thenBody : List Stmt)
  | println (args : List Expr)

/-- Modelled from the spec (3): a MethodDef — owning struct, name,
parameters, receiver flag and body. -/
structure MethodDef where
  owner : String
  mname : String
  params : List String
  hasSelf : Bool
  body : List Stmt

/-- Modelled from the spec (3, 9): the process-wide type registry, built by
the declaration-registration pass and immutable afterwards. -/
structure Registry where
  structs : List StructDef
  methods : List MethodDef

/-- Struct lookup in the registry. -/
def findStruct (reg : Registry) (n : String) : Option StructDef :=
  reg.structs.find? (fun sd => sd.name = n)

/-- Two-level method lookup: struct name, then method name (9). -/
def findMethod (reg : Registry) (sn mn : String) : Option MethodDef :=
  reg.methods.find? (fun md => md.owner = sn && md.mname = mn)

/-- Modelled from the spec (6, 7): the error taxonomy surfaced to the host,
plus the embedding's fuel-exhaustion marker for the terminating evaluator. -/
inductive Err where
  | lexError (pos : ℕ) (msg : String)
  | parseError (pos : ℕ) (expected found : String)
  | runtimeError (msg : String)
  | outOfFuel
deriving DecidableEq

/-- Modelled from the spec (4.4): the `==` comparison; struct operands
compare by identity, NaN by the IEEE rule, and mixed kinds are unequal. -/
def valueEq : Value → Value → Bool
  | .num a, .num b => a.eqb b
  | .text s, .text t => decide (s = t)
  | .inst a, .inst b => decide (a = b)
  | .boolv a, .boolv b => decide (a = b)
  | .unit, .unit => true
  | _, _ => false

/-- Display name of an operator for error messages. -/
def opName : BinOp → String
  | .add => "+"
  | .sub => "-"
  | .mul => "*"
  | .div => "/"
  | .eq => "=="

/-- Modelled from the spec (4.4): binary operator application.  Arithmetic
is defined on two Numbers only; combining a Number and Text (or any other
kind mix) with an arithmetic operator is a RuntimeError, never an implicit
coercion. -/
def applyBin : BinOp → Value → Value → Except Err Value
  | .eq, a, b => .ok (.boolv (valueEq a b))
  | .add, .num a, .num b => .ok (.num (a.add b))
  | .sub, .num a, .num b => .ok (.num (a.sub b))
  | .mul, .num a, .num b => .ok (.num (a.mul b))
  | .div, .num a, .num b => .ok (.num (a.div b))
  | op, _, _ =>
      .error (.runtimeError ("type-incompatible operands for " ++ opName op))

/-- Text rendering with embedded quotes and backslashes escaped (4.5). -/
def escapeChars : List Char → List Char
  | [] => []
  | c :: rest =>
      if c = '"' || c = '\\' then '\\' :: c :: escapeChars rest
      else c :: escapeChars rest

/-- Comma-and-space joining for struct dumps (4.5). -/
def joinComma : List String → String
  | [] => ""
  | [s] => s
  | s :: rest => s ++ ", " ++ joinComma rest

/-- Single-space joining of the rendered print arguments (4.4). -/
def joinSpace : List String → String
  | [] => ""
  | [s] => s
  | s :: rest => s ++ " " ++ joinSpace rest

/-- Modelled from the spec (4.5): the Formatter.  Number renders bare, Text
quoted with escaping, StructInstance as the struct dump in declaration
order, Unit empty; the fuel bounds the nesting of struct dumps. -/
def formatValue (heap : List Obj) (fuel : ℕ) (v : Value) : String :=
  match v with
  | .num n => renderNumber n
  | .text s => String.mk ('"' :: escapeChars s.toList ++ ['"'])
  | .boolv b => if b then "true" else "false"
  | .unit => ""
  | .inst a =>
      match fuel with
      | 0 => "..."
      | fuel + 1 =>
          match heap[a]? with
          | none => "..."
          | some o =>
              o.sname ++ " \x7b " ++
                joinComma (o.fields.map
                  (fun fv => fv.1 ++ ": " ++ formatValue heap fuel fv.2)) ++
                " \x7d"

/-- Modelled from the spec (4.3): seed a fresh instance's field mapping in
declaration order from a struct literal.  The ownership scenario of section
8 requires construction to succeed and field mutation to work even when the
literal leaves a declared field (`refCount`) unseeded, so declared fields
missing from the literal start as the Number zero. -/
def seedFields (decls : List (String × String)) (inits : List (String × Value)) :
    List (String × Value) :=
  decls.map (fun d => (d.1, (getA inits d.1).getD (.num (.finite 0))))

/-- Check that every literal initializer names a declared field (4.4's
unknown-field rule at construction). -/
def initsDeclared (decls : List (String × String)) (inits : List (String × Value)) :
    Bool :=
  inits.all (fun iv => decls.any (fun d => d.1 = iv.1))

mutual

/-- Modelled from the spec (4.4): expression evaluation against an
Environment and the store.  The fuel argument decreases on every recursive
step so the evaluator is total; a run that exhausts it reports `outOfFuel`,
and every theorem below supplies enough fuel. -/
def evalExpr : ℕ → Registry → Env → EvalSt → Expr → Except Err (Value × EvalSt)
  | 0, _, _, _, _ => .error .outOfFuel
  | _ + 1, _, _, st, .numLit q => .ok (.num (.finite q), st)
  | _ + 1, _, _, st, .strLit s => .ok (.text s, st)
  | _ + 1, _, env, st, .ident n =>
      match lookupEnv env n with
      | some v => .ok (v, st)
      | none => .error (.runtimeError ("unknown identifier " ++ n))
  | fuel + 1, reg, env, st, .binop op l r => do
      let (lv, st₁) ← evalExpr fuel reg env st l
      let (rv, st₂) ← evalExpr fuel reg env st₁ r
      match applyBin op lv rv with
      | .ok v => .ok (v, st₂)
      | .error e => .error e
  | fuel + 1, reg, env, st, .fieldAcc obj f => do
      let (ov, st₁) ← evalExpr fuel reg env st obj
      match ov with
      | .inst a =>
          match heapGetField st₁.heap a f with
          | some v => .ok (v, st₁)
          | none => .error (.runtimeError ("unknown field " ++ f))
      | _ => .error (.runtimeError ("field access on a non-struct value"))
  | fuel + 1, reg, env, st, .methodCall recv mname args => do
      let (rv, st₁) ← evalExpr fuel reg env st recv
      match rv with
      | .inst a =>
          match st₁.heap[a]? with
          | some o =>
              match findMethod reg o.sname mname with
              | some md => do
                  let (argv, st₂) ← evalArgs fuel reg env st₁ args
                  callFn fuel reg (globalScope env) md (some rv) argv st₂
              | none => .error (.runtimeError ("unknown method " ++ mname))
          | none => .error (.runtimeError ("dangling instance"))
      | _ => .error (.runtimeError ("method call on a non-struct value"))
  | fuel + 1, reg, env, st, .staticCall sn fn args =>
      match findMethod reg sn fn with
      | some md => do
          let (argv, st₁) ← evalArgs fuel reg env st args
          callFn fuel reg (globalScope env) md none argv st₁
      | none => .error (.runtimeError ("unknown method " ++ sn ++ "::" ++ fn))
  | fuel + 1, reg, env, st, .structLit sn inits =>
      match findStruct reg sn with
      | some sd => do
          let (ivs, st₁) ← evalInits fuel reg env st inits
          if initsDeclared sd.fieldDecls ivs then
            .ok (.inst st₁.heap.length,
                 ⟨st₁.heap ++ [⟨sn, seedFields sd.fieldDecls ivs⟩], st₁.out⟩)
          else .error (.runtimeError ("unknown field in literal for " ++ sn))
      | none => .error (.runtimeError ("unknown struct " ++ sn))

/-- Left-to-right evaluation of call arguments (4.4). -/
def evalArgs : ℕ → Registry → Env → EvalSt → List Expr →
    Except Err (List Value × EvalSt)
  | 0, _, _, _, _ => .error .outOfFuel
  | _ + 1, _, _, st, [] => .ok ([], st)
  | fuel + 1, reg, env, st, e :: rest => do
      let (v, st₁) ← evalExpr fuel reg env st e
      let (vs, st₂) ← evalArgs fuel reg env st₁ rest
      .ok (v :: vs, st₂)

/-- Left-to-right evaluation of struct-literal initializers (4.3). -/
def evalInits : ℕ → Registry → Env → EvalSt → List (String × Expr) →
    Except Err (List (String × Value) × EvalSt)
  | 0, _, _, _, _ => .error .outOfFuel
  | _ + 1, _, _, st, [] => .ok ([], st)
  | fuel + 1, reg, env, st, (f, e) :: rest => do
      let (v, st₁) ← evalExpr fuel reg env st e
      let (ivs, st₂) ← evalInits fuel reg env st₁ rest
      .ok ((f, v) :: ivs, st₂)

/-- Modelled from the spec (4.4): method or function invocation.  The
declared parameter count is resolved exactly — an arity mismatch is a
RuntimeError before anything else happens, never a silent default — then
parameters (and `self` for methods) are bound in a fresh child scope of the
global scope and the body runs; the call's result is the value of the final
expression statement, or Unit. -/
def callFn : ℕ → Registry → Scope → MethodDef → Option Value → List Value →
    EvalSt → Except Err (Value × EvalSt)
  | fuel, reg, gscope, md, selfv, args, st =>
      if args.length ≠ md.params.length then
        .error (.runtimeError ("arity mismatch in call to " ++ md.owner ++
          "::" ++ md.mname))
      else
        match fuel with
        | 0 => .error .outOfFuel
        | fuel + 1 =>
            let callScope :=
              (match selfv with
               | some v => [("self", v)]
               | none => []) ++ md.params.zip args
            match evalStmts fuel reg [callScope, gscope] st md.body with
            | .ok (v, _, st₁) => .ok (v, st₁)
            | .error e => .error e

/-- Modelled from the spec (4.4): statement execution.  `let` binds in the
current scope, field assignment mutates the shared instance in place,
`println!` renders every argument with the Formatter, joins them with a
single space and emits one output line, producing Unit. -/
def evalStmt : ℕ → Registry → Env → EvalSt → Stmt →
    Except Err (Value × Env × EvalSt)
  | 0, _, _, _, _ => .error .outOfFuel
  | fuel + 1, reg, env, st, .letDecl n e => do
      let (v, st₁) ← evalExpr fuel reg env st e
      .ok (.unit, envBind env n v, st₁)
  | fuel + 1, reg, env, st, .exprStmt e => do
      let (v, st₁) ← evalExpr fuel reg env st e
      .ok (v, env, st₁)
  | fuel + 1, reg, env, st, .assignField obj f rhs => do
      let (ov, st₁) ← evalExpr fuel reg env st obj
      match ov with
      | .inst a => do
          let (v, st₂) ← evalExpr fuel reg env st₁ rhs
          match heapSetField st₂.heap a f v with
          | some heap₂ => .ok (.unit, env, ⟨heap₂, st₂.out⟩)
          | none => .error (.runtimeError ("unknown field " ++ f))
      | _ => .error (.runtimeError ("field assignment on a non-struct value"))
  | fuel + 1, reg, env, st, .ifStmt c body => do
      let (cv, st₁) ← evalExpr fuel reg env st c
      match cv with
      | .boolv true => do
          let (_, _, st₂) ← evalStmts fuel reg ([] :: env) st₁ body
          .ok (.unit, env, st₂)
      | .boolv false => .ok (.unit, env, st₁)
      | _ => .error (.runtimeError ("non-boolean condition"))
  | fuel + 1, reg, env, st, .println args => do
      let (vs, st₁) ← evalArgs fuel reg env st args
      let line := joinSpace (vs.map (formatValue st₁.heap (st₁.heap.length + 1)))
      .ok (.unit, env, ⟨st₁.heap, st₁.out ++ [line]⟩)

/-- Modelled from the spec (4.4): statements run strictly in source order;
the sequence's value is the last statement's value (Unit when the last
statement is not an expression statement, Unit for an empty body). -/
def evalStmts : ℕ → Registry → Env → EvalSt → List Stmt →
    Except Err (Value × Env × EvalSt)
  | 0, _, _, _, _ => .error .outOfFuel
  | _ + 1, _, env, st, [] => .ok (.unit, env, st)
  | fuel + 1, reg, env, st, [s] => evalStmt fuel reg env st s
  | fuel + 1, reg, env, st, s :: s₂ :: rest => do
      let (_, env₁, st₁) ← evalStmt fuel reg env st s
      evalStmts fuel reg env₁ st₁ (s₂ :: rest)

end

/-- Modelled from the spec (4.4): run a program — registry already built by
the declaration-registration pass — from an empty global scope, empty store
and no output. -/
def runProgram (fuel : ℕ) (reg : Registry) (stmts : List Stmt) :
    Except Err (Value × Env × EvalSt) :=
  evalStmts fuel reg [[]] ⟨[], []⟩ stmts

/-- Final value of a run. -/
def runValue (r : Except Err (Value × Env × EvalSt)) : Option Value :=
  match r with
  | .ok (v, _, _) => some v
  | .error _ => none

/-- Final binding of a name after a run. -/
def runBinding (r : Except Err (Value × Env × EvalSt)) (n : String) :
    Option Value :=
  match r with
  | .ok (_, env, _) => lookupEnv env n
  | .error _ => none

/-- Final value of a field of the instance at a heap address after a run. -/
def runHeapField (r : Except Err (Value × Env × EvalSt)) (a : ℕ) (f : String) :
    Option Value :=
  match r with
  | .ok (_, _, st) => heapGetField st.heap a f
  | .error _ => none

/-- Output lines of a successful run. -/
def runOut (r : Except Err (Value × Env × EvalSt)) : Option (List String) :=
  match r with
  | .ok (_, _, st) => some st.out
  | .error _ => none

/-- The struct declarations of `src/examples/classes.rs` (lines 3-5, 18-20,
36-39), as the declaration-registration pass records them. -/
def classesStructs : List StructDef :=
  [⟨"Shape", [("type", "String")]⟩,
   ⟨"Circle", [("radius", "f64")]⟩,
   ⟨"Rectangle", [("width", "f64"), ("height", "f64")]⟩]

/-- The `impl` blocks of `src/examples/classes.rs` (lines 7-16, 22-34,
41-54), as the declaration-registration pass records them; bodies are the
ASTs the specified parser produces, with `*` binding tighter than `+`. -/
def classesMethods : List MethodDef :=
  [⟨"Shape", "new", ["type"], false,
     [.exprStmt (.structLit "Shape" [("type", .ident "type")])]⟩,
   ⟨"Shape", "getType", [], true,
     [.exprStmt (.fieldAcc (.ident "self") "type")]⟩,
   ⟨"Circle", "new", ["r"], false,
     [.exprStmt (.structLit "Circle" [("radius", .ident "r")])]⟩,
   ⟨"Circle", "area", [], true,
     [.exprStmt (.binop .mul
        (.binop .mul (.ident "PI") (.fieldAcc (.ident "self") "radius"))
        (.fieldAcc (.ident "self") "radius"))]⟩,
   ⟨"Circle", "circumference", [], true,
     [.exprStmt (.binop .mul
        (.binop .mul (.numLit (mkRat 2 1)) (.ident "PI"))
        (.fieldAcc (.ident "self") "radius"))]⟩,
   ⟨"Rectangle", "new", ["w", "h"], false,
     [.exprStmt (.structLit "Rectangle"
        [("width", .ident "w"), ("height", .ident "h")])]⟩,
   ⟨"Rectangle", "area", [], true,
     [.exprStmt (.binop .mul
        (.fieldAcc (.ident "self") "width")
        (.fieldAcc (.ident "self") "height"))]⟩,
   ⟨"Rectangle", "perimeter", [], true,
     [.exprStmt (.binop .add
        (.binop .mul (.numLit (mkRat 2 1)) (.fieldAcc (.ident "self") "width"))
        (.fieldAcc (.ident "self") "height"))]⟩]

/-- The registry `src/examples/classes.rs` registers. -/
def classesReg : Registry := ⟨classesStructs, classesMethods⟩

/-- The top-level `let PI: f64 = 3.14159;` of `classes.rs` line 1; the
numeric literal is the exact rational the decimal text denotes. -/
def piLet : Stmt := .letDecl "PI" (.numLit (mkRat 314159 100000))

/-- The Rectangle scenario of `classes.rs` lines 64 and 70: construct
`Rectangle::new(4, 6)` and evaluate `rectangle.perimeter()`. -/
def rectanglePerimeterRun : Except Err (Value × Env × EvalSt) :=
  runProgram 64 classesReg
    [.letDecl "rectangle"
       (.staticCall "Rectangle" "new" [.numLit (mkRat 4 1), .numLit (mkRat 6 1)]),
     .exprStmt (.methodCall (.ident "rectangle") "perimeter" [])]

/-- The Circle scenario of `classes.rs` lines 1, 56 and 60: bind `PI` at top
level, construct `Circle::new(5)` and evaluate `circle.area()`. -/
def circleAreaRun : Except Err (Value × Env × EvalSt) :=
  runProgram 64 classesReg
    [piLet,
     .letDecl "circle" (.staticCall "Circle" "new" [.numLit (mkRat 5 1)]),
     .exprStmt (.methodCall (.ident "circle") "area" [])]

/-- The struct and `impl` declarations of `src/examples/ownership.rs`
(lines 2-28), as the declaration-registration pass records them. -/
def ownershipReg : Registry :=
  ⟨[⟨"Resource", [("id", "String"), ("refCount", "f64")]⟩],
   [⟨"Resource", "new", ["id"], false,
      [.println [.strLit "Resource created:", .ident "id"],
       .exprStmt (.structLit "Resource" [("id", .ident "id")])]⟩,
    ⟨"Resource", "borrow", [], true,
      [.assignField (.ident "self") "refCount"
         (.binop .add (.fieldAcc (.ident "self") "refCount") (.numLit (mkRat 1 1))),
       .println [.strLit "Resource borrowed:", .fieldAcc (.ident "self") "id",
                 .strLit "- refs:", .fieldAcc (.ident "self") "refCount"]]⟩,
    ⟨"Resource", "release", [], true,
      [.assignField (.ident "self") "refCount"
         (.binop .sub (.fieldAcc (.ident "self") "refCount") (.numLit (mkRat 1 1))),
       .println [.strLit "Resource released:", .fieldAcc (.ident "self") "id",
                 .strLit "- refs:", .fieldAcc (.ident "self") "refCount"],
       .ifStmt (.binop .eq (.fieldAcc (.ident "self") "refCount") (.numLit (mkRat 0 1)))
         [.println [.strLit "Resource freed:", .fieldAcc (.ident "self") "id"]]]⟩,
    ⟨"Resource", "getId", [], true,
      [.exprStmt (.fieldAcc (.ident "self") "id")]⟩]⟩

/-- The statements of `fn main` in `src/examples/ownership.rs` lines 30-41:
create the resource, alias it with `let borrowed = resource1;`, then borrow
and release through both names. -/
def ownershipStmts : List Stmt :=
  [.letDecl "resource1" (.staticCall "Resource" "new" [.strLit "DB-Connection-1"]),
   .letDecl "borrowed" (.ident "resource1"),
   .exprStmt (.methodCall (.ident "borrowed") "borrow" []),
   .println [.strLit "Using resource:", .methodCall (.ident "borrowed") "getId" []],
   .exprStmt (.methodCall (.ident "borrowed") "release" []),
   .exprStmt (.methodCall (.ident "resource1") "release" [])]

/-- The full run of `ownership.rs`. -/
def ownershipRun : Except Err (Value × Env × EvalSt) :=
  runProgram 64 ownershipReg ownershipStmts

/-- Modelled from the spec (3): token kinds — identifier, keyword, number,
string, symbol, and the one recognized macro-call form. -/
inductive TokKind where
  | identTok
  | keywordTok
  | numberTok
  | stringTok
  | symbolTok
  | printlnTok
deriving DecidableEq

/-- Modelled from the spec (3): a Token — kind, literal text and source
position (character index). -/
structure Token where
  kind : TokKind
  text : String
  pos : ℕ
deriving DecidableEq

/-- The dialect's keywords (4.1). -/
def keywords : List String :=
  ["let", "struct", "impl", "fn", "pub", "self", "Self", "if"]

/-- Letter or underscore, the characters an identifier may start with. -/
def isAlphaC (c : Char) : Bool :=
  ('a' ≤ c && c ≤ 'z') || ('A' ≤ c && c ≤ 'Z') || c = '_'

/-- Identifier continuation characters. -/
def isIdentC (c : Char) : Bool := isAlphaC c || isDigitC c

/-- The single-character symbols of 4.1 other than the ones that can start
a two-character symbol. -/
def isSingleSym (c : Char) : Bool :=
  c = '+' || c = '*' || c = '/' || c = '\x7b' || c = '\x7d' || c = '(' ||
  c = ')' || c = ',' || c = ';' || c = '.' || c = '&'

/-- String-literal body scan: content up to the closing quote plus the
remaining input; no escape processing beyond a backslash-quote (4.1);
`none` when the literal is unterminated. -/
def takeStr : List Char → Option (List Char × List Char)
  | [] => none
  | '\\' :: '"' :: r =>
      match takeStr r with
      | some (content, rest) => some ('"' :: content, rest)
      | none => none
  | '"' :: r => some ([], r)
  | c :: r =>
      match takeStr r with
      | some (content, rest) => some (c :: content, rest)
      | none => none

/-- Modelled from the spec (4.1): the Lexer.  Recognizes identifiers and
keywords, numeric literals, double-quoted strings with backslash-quote as
the only escape, the operators and punctuation of 4.1 together with the
arrow `->` the example files' return types require, and the macro-call form
`println!` — and only that macro form: any other use of `!` is an
unrecognized character.  Fails with a LexError carrying the offending
position. -/
def lexAux : ℕ → List Char → ℕ → Except Err (List Token)
  | 0, _, _ => .error (.lexError 0 "lexer fuel exhausted")
  | _ + 1, [], _ => .ok []
  | fuel + 1, c :: cs, pos =>
    if c = ' ' || c = '\n' || c = '\t' || c = '\r' then lexAux fuel cs (pos + 1)
    else if c = '"' then
      match takeStr cs with
      | some (content, rest) => do
          let ts ← lexAux fuel rest (pos + (cs.length - rest.length) + 1)
          .ok (⟨.stringTok, String.mk content, pos⟩ :: ts)
      | none => .error (.lexError pos "unterminated string literal")
    else if c = '=' then
      match cs with
      | '=' :: r => do
          let ts ← lexAux fuel r (pos + 2)
          .ok (⟨.symbolTok, "==", pos⟩ :: ts)
      | _ => do
          let ts ← lexAux fuel cs (pos + 1)
          .ok (⟨.symbolTok, "=", pos⟩ :: ts)
    else if c = ':' then
      match cs with
      | ':' :: r => do
          let ts ← lexAux fuel r (pos + 2)
          .ok (⟨.symbolTok, "::", pos⟩ :: ts)
      | _ => do
          let ts ← lexAux fuel cs (pos + 1)
          .ok (⟨.symbolTok, ":", pos⟩ :: ts)
    else if c = '-' then
      match cs with
      | '>' :: r => do
          let ts ← lexAux fuel r (pos + 2)
          .ok (⟨.symbolTok, "->", pos⟩ :: ts)
      | _ => do
          let ts ← lexAux fuel cs (pos + 1)
          .ok (⟨.symbolTok, "-", pos⟩ :: ts)
    else if isSingleSym c then do
      let ts ← lexAux fuel cs (pos + 1)
      .ok (⟨.symbolTok, String.mk [c], pos⟩ :: ts)
    else if isAlphaC c then
      let ip := (c :: cs).takeWhile isIdentC
      let rest := (c :: cs).dropWhile isIdentC
      let name := String.mk ip
      match rest with
      | '!' :: r2 =>
          if name = "println" then do
            let ts ← lexAux fuel r2 (pos + ip.length + 1)
            .ok (⟨.printlnTok, "println!", pos⟩ :: ts)
          else .error (.lexError (pos + ip.length) "unrecognized character")
      | _ => do
          let ts ← lexAux fuel rest (pos + ip.length)
          .ok (⟨(if name ∈ keywords then .keywordTok else .identTok), name, pos⟩ :: ts)
    else if isDigitC c then
      let ip := (c :: cs).takeWhile isDigitC
      let rest := (c :: cs).dropWhile isDigitC
      match rest with
      | '.' :: r2 =>
          let fp := r2.takeWhile isDigitC
          if fp.isEmpty then
            .error (.lexError (pos + ip.length + 1) "digit expected")
          else do
            let ts ← lexAux fuel (r2.dropWhile isDigitC) (pos + ip.length + 1 + fp.length)
            .ok (⟨.numberTok, String.mk (ip ++ '.' :: fp), pos⟩ :: ts)
      | _ => do
          let ts ← lexAux fuel rest (pos + ip.length)
          .ok (⟨.numberTok, String.mk ip, pos⟩ :: ts)
    else .error (.lexError pos "unrecognized character")

/-- Lex a source text from its start; the fuel bound covers the whole text
because every step consumes at least one character. -/
def lexSrc (s : String) : Except Err (List Token) :=
  lexAux (s.length + 1) s.toList 0

/-- Modelled from the spec (2): the pipeline order — source text goes to the
Lexer first, and only a successful token stream reaches the parser, the
evaluator and the output; `rest` stands for those later stages. -/
def runLexedPipeline (rest : List Token → Except Err (List String))
    (src : String) : Except Err (List String) :=
  (lexSrc src).bind rest

/-- The verbatim text of `src/examples/hello.rs`. -/
def helloSource : String :=
  "fn main() \x7b\n    let message: String = \"Hello, ScriptRust!\";\n\n    fn greet(name: String) -> String \x7b\n        format!(\"Hello, \x7b\x7d!\", name)\n\x7d\n\n    println!(\"\x7b:?\x7d\", message);\n\n    println!(\"\x7b:?\x7d\", greet(\"World\"));\n\n    println!(\"\x7b:?\x7d\", greet(\"Developer\"));\n\n\x7d\n\n"

theorem natDigitsAux_eq (fuel : ℕ) : ∀ n, n ≤ fuel → natDigitsAux fuel n = Nat.digits 10 n := by
  induction fuel with
  | zero =>
    intro n hn
    interval_cases n
    simp [natDigitsAux]
  | succ fuel ih =>
    intro n hn
    match n with
    | 0 => simp [natDigitsAux]
    | n + 1 =>
      rw [natDigitsAux, Nat.digits_def' (by norm_num : (1:ℕ) < 10) (Nat.succ_pos n)]
      congr 1
      exact ih _ (Nat.le_of_lt_succ (Nat.lt_of_lt_of_le
        (Nat.div_lt_self (Nat.succ_pos n) (by norm_num)) hn))

theorem natDigits_eq (n : ℕ) : natDigits n = Nat.digits 10 n :=
  natDigitsAux_eq n n le_rfl

theorem charDigit_digitChar (d : ℕ) (hd : d < 10) : charDigit (digitChar d) = d := by
  interval_cases d <;> rfl

theorem isDigitC_digitChar (d : ℕ) (hd : d < 10) : isDigitC (digitChar d) = true := by
  interval_cases d <;> rfl

theorem natDigits_lt (n : ℕ) : ∀ d ∈ natDigits n, d < 10 := by
  intro d hd
  rw [natDigits_eq] at hd
  exact Nat.digits_lt_base (by norm_num) hd

theorem natChars_all_digits (n : ℕ) : ∀ c ∈ natChars n, isDigitC c = true := by
  intro c hc
  simp only [natChars, List.mem_reverse, List.mem_map] at hc
  obtain ⟨d, hd, rfl⟩ := hc
  exact isDigitC_digitChar d (natDigits_lt n d hd)

theorem foldr_digits_eq_ofDigits (ds : List ℕ) (h : ∀ d ∈ ds, d < 10) :
    ds.foldr (fun d acc => 10 * acc + charDigit (digitChar d)) 0 = Nat.ofDigits 10 ds := by
  induction ds with
  | nil => rfl
  | cons d tl ih =>
    simp only [List.foldr_cons, Nat.ofDigits_cons,
      ih (fun x hx => h x (List.mem_cons_of_mem d hx)),
      charDigit_digitChar d (h d (List.mem_cons_self d tl))]
    ring

theorem readNat_natChars (n : ℕ) : readNat (natChars n) = n := by
  unfold readNat natChars
  rw [List.foldl_reverse, List.foldr_map, foldr_digits_eq_ofDigits _ (natDigits_lt n),
    natDigits_eq]
  exact_mod_cast Nat.ofDigits_digits 10 n

theorem readNat_natCharsZ (n : ℕ) : readNat (natCharsZ n) = n := by
  unfold natCharsZ
  split
  · simp_all [readNat, charDigit]
  · exact readNat_natChars n

theorem foldl_read_replicate_zero (m : ℕ) :
    List.foldl (fun a c => 10 * a + charDigit c) 0 (List.replicate m '0') = 0 := by
  induction m with
  | zero => rfl
  | succ m ih => simpa [List.replicate_succ, charDigit] using ih

theorem readNat_natCharsPad (n k : ℕ) : readNat (natCharsPad n k) = n := by
  unfold natCharsPad readNat
  rw [List.foldl_append, foldl_read_replicate_zero]
  exact readNat_natChars n

theorem natChars_length_le (n k : ℕ) (h : n < 10 ^ k) : (natChars n).length ≤ k := by
  unfold natChars
  rw [List.length_reverse, List.length_map, natDigits_eq]
  rcases Nat.eq_zero_or_pos n with rfl | hn
  · simp
  · rw [Nat.digits_len 10 n (by norm_num) (Nat.pos_iff_ne_zero.mp hn)]
    have := Nat.log_lt_of_lt_pow (Nat.pos_iff_ne_zero.mp hn) h
    omega

theorem natCharsPad_length (n k : ℕ) (h : n < 10 ^ k) : (natCharsPad n k).length = k := by
  unfold natCharsPad
  rw [List.length_append, List.length_replicate]
  have := natChars_length_le n k h
  omega

theorem natCharsPad_all_digits (n k : ℕ) : ∀ c ∈ natCharsPad n k, isDigitC c = true := by
  intro c hc
  rcases List.mem_append.mp hc with hr | hn
  · rw [List.eq_of_mem_replicate hr]; rfl
  · exact natChars_all_digits n c hn

theorem natChars_ne_nil (n : ℕ) (hn : n ≠ 0) : natChars n ≠ [] := by
  unfold natChars
  simp only [ne_eq, List.reverse_eq_nil_iff, List.map_eq_nil_iff, natDigits_eq]
  exact Nat.digits_ne_nil_iff_ne_zero.mpr hn

theorem natCharsZ_ne_nil (n : ℕ) : natCharsZ n ≠ [] := by
  unfold natCharsZ
  split
  · simp
  · exact natChars_ne_nil n (by assumption)

theorem natCharsZ_all_digits (n : ℕ) : ∀ c ∈ natCharsZ n, isDigitC c = true := by
  unfold natCharsZ
  split
  · intro c hc; simp at hc; subst hc; rfl
  · exact natChars_all_digits n

theorem takeWhile_all_append (p : Char → Bool) (l : List Char) (x : Char)
    (r : List Char) (hl : ∀ c ∈ l, p c = true) (hx : p x = false) :
    (l ++ x :: r).takeWhile p = l ∧ (l ++ x :: r).dropWhile p = x :: r := by
  induction l with
  | nil => simp [List.takeWhile_cons, List.dropWhile_cons, hx]
  | cons a tl ih =>
    have ha : p a = true := hl a (List.mem_cons_self a tl)
    have htl := ih (fun c hc => hl c (List.mem_cons_of_mem a hc))
    simp [List.takeWhile_cons, List.dropWhile_cons, ha, htl.1, htl.2]

theorem findKAux_dvd (den : ℕ) :
    ∀ fuel k0 k, findKAux den k0 fuel = some k → den ∣ 10 ^ k := by
  intro fuel
  induction fuel with
  | zero => intro k0 k h; simp [findKAux] at h
  | succ fuel ih =>
    intro k0 k h
    unfold findKAux at h
    split at h
    · cases h
      exact Nat.dvd_of_mod_eq_zero (by assumption)
    · exact ih _ _ h

theorem findK_dvd (den k : ℕ) (h : findK den = some k) : den ∣ 10 ^ k :=
  findKAux_dvd den (den + 1) 0 k h

theorem parseUnsigned_decChars (n k : ℕ) :
    parseUnsignedChars (decChars n k) = some (mkRat n (10 ^ k)) := by
  unfold decChars
  by_cases hk : k = 0
  · subst hk
    rw [if_pos rfl]
    unfold parseUnsignedChars
    rw [List.takeWhile_eq_self_iff.mpr (by simpa using natCharsZ_all_digits n),
      List.dropWhile_eq_nil_iff.mpr (by simpa using natCharsZ_all_digits n)]
    have h1 : (natCharsZ n).isEmpty = false :=
      List.isEmpty_eq_false_iff_exists_mem.mpr (List.exists_mem_of_ne_nil _ (natCharsZ_ne_nil n))
    dsimp only
    rw [h1]
    simp [readNat_natCharsZ]
  · rw [if_neg hk]
    unfold parseUnsignedChars
    have hsplit := takeWhile_all_append isDigitC (natCharsZ (n / 10 ^ k)) '.'
      (natCharsPad (n % 10 ^ k) k) (natCharsZ_all_digits _) (by rfl)
    rw [hsplit.1, hsplit.2]
    have hfplen : (natCharsPad (n % 10 ^ k) k).length = k :=
      natCharsPad_length _ _ (Nat.mod_lt _ (by positivity))
    have h1 : (natCharsZ (n / 10 ^ k)).isEmpty = false :=
      List.isEmpty_eq_false_iff_exists_mem.mpr
        (List.exists_mem_of_ne_nil _ (natCharsZ_ne_nil _))
    have h2 : (natCharsPad (n % 10 ^ k) k).isEmpty = false := by
      rcases hcs : natCharsPad (n % 10 ^ k) k with _ | ⟨a, l⟩
      · rw [hcs] at hfplen
        exact absurd hfplen.symm hk
      · rfl
    have h3 : (natCharsPad (n % 10 ^ k) k).all isDigitC = true :=
      List.all_eq_true.mpr (by simpa using natCharsPad_all_digits (n % 10 ^ k) k)
    dsimp only
    rw [h1]
    simp only [Bool.false_eq_true, if_false, List.isEmpty_cons, List.head?_cons,
      List.tail_cons, h2, h3, Bool.not_true, Bool.or_false]
    rw [if_pos trivial, hfplen, readNat_natCharsZ, readNat_natCharsPad]
    have hdm : (n / 10 ^ k) * 10 ^ k + n % 10 ^ k = n := by
      rw [Nat.mul_comm]
      exact Nat.div_add_mod n (10 ^ k)
    congr 2
    exact_mod_cast hdm

theorem decChars_head_digit (n k : ℕ) :
    ∃ c cs, decChars n k = c :: cs ∧ isDigitC c = true := by
  unfold decChars
  split
  · rcases hcs : natCharsZ n with _ | ⟨c, cs⟩
    · exact absurd hcs (natCharsZ_ne_nil n)
    · exact ⟨c, cs, rfl, natCharsZ_all_digits n c (by rw [hcs]; exact List.mem_cons_self c cs)⟩
  · rcases hcs : natCharsZ (n / 10 ^ k) with _ | ⟨c, cs⟩
    · exact absurd hcs (natCharsZ_ne_nil _)
    · refine ⟨c, cs ++ '.' :: natCharsPad (n % 10 ^ k) k, ?_, ?_⟩
      · rfl
      · exact natCharsZ_all_digits _ c (by rw [hcs]; exact List.mem_cons_self c cs)

theorem renderRat_roundtrip (q : ℚ) (k : ℕ) (hk : findK q.den = some k) :
    parseRatChars (renderRatChars q) = some q := by
  obtain ⟨m, hm⟩ := findK_dvd q.den k hk
  have hden : q.den ≠ 0 := q.den_nz
  have hm0 : m ≠ 0 := by
    intro h
    rw [h, Nat.mul_zero] at hm
    exact absurd hm (by positivity)
  have h10 : 10 ^ k / q.den = m := by
    rw [hm]
    exact Nat.mul_div_cancel_left m (Nat.pos_of_ne_zero hden)
  unfold renderRatChars
  rw [hk]
  dsimp only
  by_cases hneg : q.num < 0
  · rw [if_pos hneg, List.singleton_append]
    unfold parseRatChars
    simp only [List.head?_cons, List.tail_cons]
    rw [if_pos trivial, h10, parseUnsigned_decChars]
    simp only [Option.map_some']
    rw [Rat.neg_mkRat, hm]
    have hcast : (-((q.num.natAbs * m : ℕ) : ℤ)) = (-(q.num.natAbs : ℤ)) * (m : ℤ) := by
      push_cast
      ring
    rw [hcast, Rat.mkRat_mul_right hm0]
    have habs : (-(q.num.natAbs : ℤ)) = q.num := by omega
    rw [habs, Rat.mkRat_self]
  · rw [if_neg hneg, List.nil_append]
    obtain ⟨c, cs, hdec, hcdig⟩ := decChars_head_digit (q.num.natAbs * (10 ^ k / q.den)) k
    unfold parseRatChars
    rw [hdec]
    have hcne : ¬ ((c :: cs).head? = some '-') := by
      simp only [List.head?_cons, Option.some.injEq]
      intro h
      rw [h] at hcdig
      exact absurd hcdig (by decide)
    rw [if_neg hcne, ← hdec, h10, parseUnsigned_decChars]
    rw [hm]
    have hcast : (((q.num.natAbs * m : ℕ) : ℤ)) = ((q.num.natAbs : ℤ)) * (m : ℤ) := by
      push_cast
      ring
    rw [hcast, Rat.mkRat_mul_right hm0]
    have habs : ((q.num.natAbs : ℤ)) = q.num := by omega
    rw [habs, Rat.mkRat_self]

theorem getA_setA : ∀ (l : List (String × Value)) (f : String) (v : Value)
    (l2 : List (String × Value)), setA l f v = some l2 → getA l2 f = some v := by
  intro l
  induction l with
  | nil =>
    intro f v l2 h
    exact Option.noConfusion h
  | cons kv rest ih =>
    intro f v l2 h
    obtain ⟨k, w⟩ := kv
    unfold setA at h
    by_cases hk : k = f
    · rw [if_pos hk] at h
      cases h
      unfold getA
      rw [if_pos hk]
    · rw [if_neg hk] at h
      cases hset : setA rest f v with
      | none =>
        rw [hset] at h
        exact Option.noConfusion h
      | some rest2 =>
        rw [hset] at h
        cases h
        unfold getA
        rw [if_neg hk]
        exact ih f v rest2 hset

theorem heapGet_of_heapSet (heap : List Obj) (a : ℕ) (f : String) (v : Value)
    (heap2 : List Obj) (h : heapSetField heap a f v = some heap2) :
    heapGetField heap2 a f = some v := by
  unfold heapSetField at h
  cases hga : heap[a]? with
  | none =>
    rw [hga] at h
    exact Option.noConfusion h
  | some o =>
    rw [hga] at h
    dsimp only at h
    cases hsa : setA o.fields f v with
    | none =>
      rw [hsa] at h
      exact Option.noConfusion h
    | some fs =>
      rw [hsa] at h
      dsimp only at h
      cases h
      have ha : a < heap.length := by
        by_contra hge
        rw [List.getElem?_eq_none (le_of_not_lt hge)] at hga
        exact Option.noConfusion hga
      unfold heapGetField
      rw [List.getElem?_set_eq_of_lt _ ha]
      exact getA_setA o.fields f v fs hsa

theorem lookupEnv_envBind_self (env : Env) (n : String) (v : Value) :
    lookupEnv (envBind env n v) n = some v := by
  cases env with
  | nil => simp [envBind, lookupEnv, getA]
  | cons s rest => simp [envBind, lookupEnv, getA]

theorem lookupEnv_envBind_ne (env : Env) (n x : String) (v : Value) (h : n ≠ x) :
    lookupEnv (envBind env n v) x = lookupEnv env x := by
  cases env with
  | nil => simp [envBind, lookupEnv, getA, h]
  | cons s rest =>
    simp only [envBind, lookupEnv, getA, if_neg h]

theorem except_bind_ok {α β : Type} (a : α) (f : α → Except Err β) :
    (Except.ok a >>= f) = f a := rfl

/-- C1: for every binding `x` denoting a StructInstance, executing
`let y = x;` copies only the heap address, so afterwards `x` and `y` denote
the same instance: the store is unchanged (no instance is copied), `y` (and
still `x`) resolve to the same address, and a field assignment performed
through `y` is observed by a subsequent field read through `x` — and, the
statement being symmetric in the two alias hypotheses, vice versa. -/
theorem let_alias_shares_instance (fuel : ℕ) (reg : Registry) (env : Env)
    (st : EvalSt) (x y : String) (a : ℕ)
    (hx : lookupEnv env x = some (Value.inst a)) :
    evalStmt (fuel + 2) reg env st (Stmt.letDecl y (Expr.ident x)) =
      .ok (Value.unit, envBind env y (Value.inst a), st)
    ∧ lookupEnv (envBind env y (Value.inst a)) y = some (Value.inst a)
    ∧ (y ≠ x → lookupEnv (envBind env y (Value.inst a)) x = some (Value.inst a))
    ∧ (∀ (fuel₂ fuel₃ : ℕ) (env₂ : Env) (st₂ st₃ : EvalSt) (f : String)
         (rhs : Expr) (v : Value) (heap₄ : List Obj),
        lookupEnv env₂ y = some (Value.inst a) →
        lookupEnv env₂ x = some (Value.inst a) →
        evalExpr (fuel₂ + 1) reg env₂ st₂ rhs = .ok (v, st₃) →
        heapSetField st₃.heap a f v = some heap₄ →
        evalStmt (fuel₂ + 2) reg env₂ st₂ (Stmt.assignField (Expr.ident y) f rhs) =
          .ok (Value.unit, env₂, ⟨heap₄, st₃.out⟩)
        ∧ evalExpr (fuel₃ + 2) reg env₂ ⟨heap₄, st₃.out⟩
            (Expr.fieldAcc (Expr.ident x) f) = .ok (v, ⟨heap₄, st₃.out⟩)) := by
  refine ⟨?_, lookupEnv_envBind_self env y (Value.inst a), ?_, ?_⟩
  · rw [show fuel + 2 = (fuel + 1) + 1 from rfl]
    simp only [evalStmt, evalExpr, hx]
    rfl
  · intro hne
    rw [lookupEnv_envBind_ne env y x (Value.inst a) hne]
    exact hx
  · intro fuel₂ fuel₃ env₂ st₂ st₃ f rhs v heap₄ hy hx₂ hrhs hset
    constructor
    · rw [show fuel₂ + 2 = (fuel₂ + 1) + 1 from rfl]
      simp only [evalStmt, evalExpr, hy, hrhs, hset, except_bind_ok]
    · rw [show fuel₃ + 2 = (fuel₃ + 1) + 1 from rfl]
      simp only [evalExpr, hx₂, except_bind_ok,
        heapGet_of_heapSet st₃.heap a f v heap₄ hset]

/-- Closed instance of `let_alias_shares_instance`: with `x` bound to the
instance at address 0 in a one-object store, `let y = x;` aliases it, and
writing 7 to field `f` through `y` is read back through `x`. -/
theorem let_alias_shares_instance_witness :
    evalStmt 2 ⟨[], []⟩ [[("x", Value.inst 0)]]
        ⟨[⟨"S", [("f", Value.num (.finite 0))]⟩], []⟩
        (Stmt.letDecl "y" (Expr.ident "x")) =
      .ok (Value.unit, envBind [[("x", Value.inst 0)]] "y" (Value.inst 0),
        ⟨[⟨"S", [("f", Value.num (.finite 0))]⟩], []⟩)
    ∧ evalStmt 2 ⟨[], []⟩ (envBind [[("x", Value.inst 0)]] "y" (Value.inst 0))
        ⟨[⟨"S", [("f", Value.num (.finite 0))]⟩], []⟩
        (Stmt.assignField (Expr.ident "y") "f" (Expr.numLit (mkRat 7 1))) =
      .ok (Value.unit, envBind [[("x", Value.inst 0)]] "y" (Value.inst 0),
        ⟨[⟨"S", [("f", Value.num (.finite (mkRat 7 1)))]⟩], []⟩)
    ∧ evalExpr 2 ⟨[], []⟩ (envBind [[("x", Value.inst 0)]] "y" (Value.inst 0))
        ⟨[⟨"S", [("f", Value.num (.finite (mkRat 7 1)))]⟩], []⟩
        (Expr.fieldAcc (Expr.ident "x") "f") =
      .ok (Value.num (.finite (mkRat 7 1)),
        ⟨[⟨"S", [("f", Value.num (.finite (mkRat 7 1)))]⟩], []⟩) := by
  have h := let_alias_shares_instance 0 ⟨[], []⟩ [[("x", Value.inst 0)]]
    ⟨[⟨"S", [("f", Value.num (.finite 0))]⟩], []⟩ "x" "y" 0 rfl
  have h4 := h.2.2.2 0 0 (envBind [[("x", Value.inst 0)]] "y" (Value.inst 0))
    ⟨[⟨"S", [("f", Value.num (.finite 0))]⟩], []⟩
    ⟨[⟨"S", [("f", Value.num (.finite 0))]⟩], []⟩ "f"
    (Expr.numLit (mkRat 7 1)) (Value.num (.finite (mkRat 7 1)))
    [⟨"S", [("f", Value.num (.finite (mkRat 7 1)))]⟩] rfl rfl rfl rfl
  exact ⟨h.1, h4.1, h4.2⟩

/-- C2: in the Rectangle scenario of `classes.rs`, `Rectangle::new(4, 6)`
followed by `perimeter()` — whose body is `2 * self.width + self.height`,
parsed with `*` binding tighter than `+` — returns the Number 14, the value
of `(2 * 4) + 6`, and not the geometric perimeter 20. -/
theorem rectangle_perimeter_literal_fourteen :
    runValue rectanglePerimeterRun = some (Value.num (.finite (mkRat 14 1)))
    ∧ (mkRat 14 1 : ℚ) = 14
    ∧ (mkRat 14 1 : ℚ) ≠ 20 :=
  ⟨rfl, by norm_num [Rat.mkRat_eq_divInt, Rat.divInt_eq_div], by decide⟩

/-- C3: in the Circle scenario of `classes.rs`, the top-level
`let PI: f64 = 3.14159;` followed by `Circle::new(5)` and `area()` — whose
body `PI * self.radius * self.radius` resolves `PI` from the enclosing
top-level scope — returns the Number 78.53975, the exact value of
3.14159 * 5 * 5 (which is also the IEEE-754 binary64 result of that
computation). -/
theorem circle_area_is_pi_r_squared :
    runValue circleAreaRun = some (Value.num (.finite (mkRat 7853975 100000)))
    ∧ (mkRat 7853975 100000 : ℚ) = 78.53975 :=
  ⟨rfl, by norm_num [Rat.mkRat_eq_divInt, Rat.divInt_eq_div]⟩

/-- C4: the ownership scenario of `ownership.rs` — `Resource::new`, the
alias `let borrowed = resource1;`, a borrow and a `getId` through
`borrowed`, then a release through each name — runs to completion with both
bindings still denoting the same instance (address 0), the shared
`refCount` ending at one common value, and the emitted lines showing the
counter's changes through both names. -/
theorem ownership_scenario_shared_refcount :
    runBinding ownershipRun "resource1" = some (Value.inst 0)
    ∧ runBinding ownershipRun "borrowed" = some (Value.inst 0)
    ∧ runHeapField ownershipRun 0 "refCount" = some (Value.num (.finite (mkRat (-1) 1)))
    ∧ runOut ownershipRun = some
        ["\"Resource created:\" \"DB-Connection-1\"",
         "\"Resource borrowed:\" \"DB-Connection-1\" \"- refs:\" 1",
         "\"Using resource:\" \"DB-Connection-1\"",
         "\"Resource released:\" \"DB-Connection-1\" \"- refs:\" 0",
         "\"Resource freed:\" \"DB-Connection-1\"",
         "\"Resource released:\" \"DB-Connection-1\" \"- refs:\" -1"] :=
  ⟨rfl, rfl, rfl, rfl⟩

/-- C5: evaluating `println!("{:?} {:?}", "Circle - Radius:", 5.0)` emits
exactly one output line, `"Circle - Radius:" 5` — the Text argument quoted,
the Number rendered bare with no forced trailing `.0`, joined by a single
space — and the macro call's result value is Unit. -/
theorem println_debug_format_line (fuel : ℕ) (reg : Registry) (env : Env)
    (st : EvalSt) :
    evalStmt (fuel + 4) reg env st
      (Stmt.println [Expr.strLit "Circle - Radius:", Expr.numLit (mkRat 5 1)]) =
      .ok (Value.unit, env, ⟨st.heap, st.out ++ ["\"Circle - Radius:\" 5"]⟩) := rfl

/-- C6: every method or function call whose argument count differs from the
callee's declared parameter count evaluates to a RuntimeError; the arity
check precedes parameter binding, so no default is bound and no extra
argument is ignored. -/
theorem call_arity_mismatch_is_runtime_error (fuel : ℕ) (reg : Registry)
    (gscope : Scope) (md : MethodDef) (selfv : Option Value)
    (args : List Value) (st : EvalSt) (h : args.length ≠ md.params.length) :
    callFn fuel reg gscope md selfv args st =
      .error (.runtimeError ("arity mismatch in call to " ++ md.owner ++
        "::" ++ md.mname)) := by
  unfold callFn
  rw [if_pos h]

/-- Closed instance of `call_arity_mismatch_is_runtime_error`: calling the
two-parameter `Rectangle::new` with no arguments is a RuntimeError. -/
theorem call_arity_mismatch_witness :
    callFn 3 ⟨[], []⟩ [] ⟨"Rectangle", "new", ["w", "h"], false, []⟩ none []
        ⟨[], []⟩ =
      .error (.runtimeError "arity mismatch in call to Rectangle::new") :=
  call_arity_mismatch_is_runtime_error 3 ⟨[], []⟩ []
    ⟨"Rectangle", "new", ["w", "h"], false, []⟩ none [] ⟨[], []⟩ (by decide)

/-- C7: combining a Number and a Text with `+`, in either operand order, is
a RuntimeError; no implicit numeric-to-text coercion is performed. -/
theorem add_number_text_is_runtime_error (a : NumberV) (s : String) :
    applyBin .add (.num a) (.text s) =
      .error (.runtimeError "type-incompatible operands for +")
    ∧ applyBin .add (.text s) (.num a) =
      .error (.runtimeError "type-incompatible operands for +") :=
  ⟨rfl, rfl⟩

/-- C8: dividing a finite Number by the Number zero never yields an error:
the result is a Number — NaN when the dividend is zero, and the
appropriately signed infinity otherwise, matching the IEEE-754 policy. -/
theorem div_by_zero_policy (a : ℚ) :
    (∃ v, applyBin .div (.num (.finite a)) (.num (.finite 0)) = .ok v)
    ∧ (a = 0 → applyBin .div (.num (.finite a)) (.num (.finite 0)) =
        .ok (.num .nan))
    ∧ (0 < a → applyBin .div (.num (.finite a)) (.num (.finite 0)) =
        .ok (.num .posInf))
    ∧ (a < 0 → applyBin .div (.num (.finite a)) (.num (.finite 0)) =
        .ok (.num .negInf)) := by
  have hred : applyBin .div (.num (.finite a)) (.num (.finite 0)) =
      .ok (.num (if a = 0 then .nan else if 0 < a then .posInf else .negInf)) := by
    show Except.ok (Value.num (if (0 : ℚ) = 0 then
        (if a = 0 then NumberV.nan else if 0 < a then NumberV.posInf
         else NumberV.negInf)
      else NumberV.finite (qDiv a 0))) = _
    rw [if_pos rfl]
  refine ⟨⟨_, hred⟩, ?_, ?_, ?_⟩
  · intro h
    rw [hred, if_pos h]
  · intro h
    rw [hred, if_neg (ne_of_gt h), if_pos h]
  · intro h
    rw [hred, if_neg (ne_of_lt h), if_neg (not_lt.mpr (le_of_lt h))]

/-- Closed instances of `div_by_zero_policy`: 0 / 0 is NaN, 1 / 0 is
positive infinity, (-1) / 0 is negative infinity, none an error. -/
theorem div_by_zero_policy_witness :
    applyBin .div (.num (.finite 0)) (.num (.finite 0)) = .ok (.num .nan)
    ∧ applyBin .div (.num (.finite 1)) (.num (.finite 0)) = .ok (.num .posInf)
    ∧ applyBin .div (.num (.finite (-1))) (.num (.finite 0)) = .ok (.num .negInf) :=
  ⟨(div_by_zero_policy 0).2.1 rfl,
   (div_by_zero_policy 1).2.2.1 (by norm_num),
   (div_by_zero_policy (-1)).2.2.2 (by norm_num)⟩

/-- C9: for every finite Number whose denominator divides a power of ten —
which covers every value an IEEE-754 double can take, their denominators
being powers of two — rendering with the Formatter and re-parsing the
rendered text as a numeric literal returns the identical Number. -/
theorem number_render_parse_roundtrip (q : ℚ) (k : ℕ)
    (hk : findK q.den = some k) :
    parseNumber (renderNumber (.finite q)) = some (.finite q) := by
  unfold parseNumber renderNumber
  rw [show (String.mk (renderRatChars q)).toList = renderRatChars q from rfl,
    renderRat_roundtrip q k hk]
  rfl

/-- Closed instance of `number_render_parse_roundtrip` at 2.5: it renders
to the text `2.5` and parses back to exactly 2.5. -/
theorem number_render_parse_roundtrip_witness :
    parseNumber (renderNumber (.finite (mkRat 5 2))) = some (.finite (mkRat 5 2)) :=
  number_render_parse_roundtrip (mkRat 5 2) 1 rfl

set_option maxRecDepth 8000 in
/-- C10: running `hello.rs` through the pipeline fails before any output is
produced: its source uses `format!(...)`, but the lexer's vocabulary has the
macro-call form `println!(...)` only, so lexing stops with a LexError at
position 114 — the `!` of `format!` — and every later pipeline stage
(parser, evaluator, output) is never reached, whatever it would have done. -/
theorem hello_fails_in_lexer :
    lexSrc helloSource = .error (.lexError 114 "unrecognized character")
    ∧ ∀ rest, runLexedPipeline rest helloSource =
        .error (.lexError 114 "unrecognized character") := by
  have h : lexSrc helloSource = .error (.lexError 114 "unrecognized character") := by
    rfl
  refine ⟨h, fun rest => ?_⟩
  unfold runLexedPipeline
  rw [h]
  rfl
